import Mathlib

/-!
Verification of the Azure DevOps PR comment analyzer (`src/main.py`).

The Python source is shallowly embedded below: pure functions become Lean
functions, the retry loop of `safe_request` becomes an explicit recursion
over the remaining loop iterations that records its observable effects
(sleeps, number of HTTP calls, final outcome), and the pipeline of `main`
becomes a fold over the upstream data.  Python strings are modelled as Lean
`String`s; the Python string primitives used by the source (`strip`,
`lower`, `split`, `startswith`, `int(...)`, `urllib.parse.unquote`) are
embedded for the ASCII inputs the program deals with.
-/

namespace PRAnalyzer

/-! ### Python string primitives -/

/-- The whitespace characters stripped by Python's `str.strip()`. -/
def pyIsSpace (c : Char) : Bool :=
  c = ' ' || c = '\t' || c = '\n' || c = '\r' || c = '\x0b' || c = '\x0c'

/-- `str.strip()` on a character list: drop whitespace from both ends. -/
def pyStripList (l : List Char) : List Char :=
  ((l.dropWhile pyIsSpace).reverse.dropWhile pyIsSpace).reverse

/-- `text.strip()`. -/
def pyStrip (s : String) : String :=
  String.mk (pyStripList s.toList)

/-- ASCII uppercase letter test (`A`–`Z`), the characters `str.lower()`
rewrites for the ASCII identities this program handles. -/
def pyIsUpperChar (c : Char) : Bool :=
  decide (65 ≤ c.toNat ∧ c.toNat ≤ 90)

/-- `str.lower()` on one character (ASCII). -/
def pyLowerChar (c : Char) : Char :=
  if pyIsUpperChar c then Char.ofNat (c.toNat + 32) else c

/-- `s.lower()`. -/
def pyLower (s : String) : String :=
  String.mk (s.toList.map pyLowerChar)

/-- Whether a string contains an (ASCII) uppercase character. -/
def pyHasUpper (s : String) : Bool :=
  s.toList.any pyIsUpperChar

/-- Number of non-whitespace characters of a string (used to state C3
exactly as the spec phrases it). -/
def nonWsCount (s : String) : Nat :=
  (s.toList.filter (fun c => !pyIsSpace c)).length

/-- `pat` is a leading segment of `hay`. -/
def leadSeg : List Char → List Char → Bool
  | [], _ => true
  | _ :: _, [] => false
  | p :: ps, h :: hs => p = h && leadSeg ps hs

/-- Does `f` hold of some suffix of the list (including the empty one)? -/
def anySuffix (f : List Char → Bool) : List Char → Bool
  | [] => f []
  | c :: t => f (c :: t) || anySuffix f t

/-- `pat in hay` for strings-as-lists (substring occurrence). -/
def containsSub (pat hay : List Char) : Bool :=
  anySuffix (leadSeg pat) hay

/-! ### The noise filter (`STATUS_PATTERNS` / `is_noise_comment`) -/

/-- `voted\s+\d+` matched at the head of the list after the literal
`voted`: at least one whitespace character, then a digit. -/
def votedNumTail : List Char → Bool
  | [] => false
  | c :: t =>
    pyIsSpace c &&
      (match t.dropWhile pyIsSpace with
       | d :: _ => d.isDigit
       | [] => false)

/-- Search for `voted\s+\d+` anywhere in the list. -/
def searchVotedNum (l : List Char) : Bool :=
  anySuffix (fun s => leadSeg "voted".toList s && votedNumTail (s.drop 5)) l

/-- `.*pat` matched against `l`: some run of non-newline characters followed
by the literal `pat` (the semantics of `.` without `re.DOTALL`). -/
def dotStarThen (pat : List Char) : List Char → Bool
  | [] => leadSeg pat []
  | c :: t => leadSeg pat (c :: t) || (!(c = '\n') && dotStarThen pat t)

/-- Search for `pre.*post` anywhere in the list. -/
def containsDotStar (pre post hay : List Char) : Bool :=
  anySuffix (fun s => leadSeg pre s && dotStarThen post (s.drop pre.length)) hay

/-- A regex word character (`\w`): alphanumeric or underscore. -/
def isWordChar (c : Char) : Bool :=
  c.isAlphanum || c = '_'

/-- One of `merged|abandoned|completed` matched at the head of the list,
with a word boundary after it. -/
def terminalWordAt (l : List Char) : Bool :=
  ["merged", "abandoned", "completed"].any fun w =>
    leadSeg w.toList l &&
      (match l.drop w.toList.length with
       | [] => true
       | c :: _ => !isWordChar c)

/-- Search for `\b(merged|abandoned|completed)\b`, scanning with the
previous character (`none` at the start of the string) to decide the
leading word boundary. -/
def searchTerminalWord : Option Char → List Char → Bool
  | _, [] => false
  | prev, c :: t =>
    ((match prev with
      | none => true
      | some p => !isWordChar p) && terminalWordAt (c :: t))
      || searchTerminalWord (some c) t

/-- Truthiness of `STATUS_REGEX.search(text)`: the alternation of the
seventeen `STATUS_PATTERNS`, matched case-insensitively (both the input and
the patterns are lowercased; the patterns are ASCII). -/
def statusRegexSearch (text : String) : Bool :=
  let l := text.toList.map pyLowerChar
  containsSub "policy status has been updated".toList l ||
  containsSub "voted".toList l ||
  containsSub "updated the pull request status to".toList l ||
  containsSub "joined as a reviewer".toList l ||
  containsSub "conflicts are resolved".toList l ||
  containsSub "submitted conflict resolution".toList l ||
  containsSub "from the reviewers".toList l ||
  containsSub "a required reviewer".toList l ||
  containsSub "an optional reviewer".toList l ||
  containsSub "as a reviewer".toList l ||
  containsSub "set auto-complete".toList l ||
  containsSub "is changed to be a required reviewer".toList l ||
  containsSub "sonarqube".toList l ||
  searchVotedNum l ||
  containsDotStar "the reference refs/heads/".toList "was updated".toList l ||
  containsSub "updated the pull request status to abandoned".toList l ||
  searchTerminalWord none l

/-- `SYSTEM_ACTOR` from the source. -/
def SYSTEM_ACTOR : String := "microsoft.visualstudio.services.tfs"

/-- `is_noise_comment(text, author_unique)`. -/
def is_noise_comment (text : String) (author_unique : String) : Bool :=
  if text = "" ∨ (pyStrip text).length < 4 then true
  else if leadSeg SYSTEM_ACTOR.toList (pyLower author_unique).toList then true
  else if statusRegexSearch text then true
  else false

/-! ### The team classifier (`classify_team`) -/

/-- `classify_team(author, team_a, team_b)`; the Python sets are modelled
as rosters (lists) with set membership as `List.contains`. -/
def classify_team (author : String) (team_a team_b : List String) : String :=
  if team_a.contains author then "team_a"
  else if team_b.contains author then "team_b"
  else "other"

/-! ### The resilient HTTP client (`safe_request`)

Each iteration of the `for attempt in range(1, max_retries + 1)` loop makes
one call to `requests.request`.  The network is modelled as a map from the
attempt number to that call's result; the loop becomes a recursion over the
number of loop iterations left, with `attempt` carried along exactly as the
source uses it (`backoff_base ** attempt`, `attempt < max_retries`). -/

/-- `int(s)` for a decimal string: optional surrounding whitespace, an
optional sign, then at least one digit (digit-group underscores are not
modelled).  `none` models `int` raising `ValueError`. -/
def pyIntDigits (l : List Char) : Option Nat :=
  if l ≠ [] ∧ l.all Char.isDigit then
    some (l.foldl (fun a c => a * 10 + (c.toNat - 48)) 0)
  else none

/-- `int(s)` on a Python string. -/
def pyInt (s : String) : Option Int :=
  match pyStripList s.toList with
  | '+' :: rest => (pyIntDigits rest).map (fun n => (n : Int))
  | '-' :: rest => (pyIntDigits rest).map (fun n => -(n : Int))
  | rest => (pyIntDigits rest).map (fun n => (n : Int))

/-- An HTTP response as `safe_request` inspects it: the status code and the
`Retry-After` header, if present. -/
structure Resp where
  status_code : Nat
  retryAfter : Option String
deriving DecidableEq

/-- The result of one `requests.request` call: a response, or a raised
`requests.RequestException` (connection error, timeout, ...). -/
inductive ReqResult where
  | resp (r : Resp)
  | raises
deriving DecidableEq

/-- How a call to `safe_request` terminates. -/
inductive SafeReqOutcome where
  /-- `return resp` for a non-429 response below 400. -/
  | returns (r : Resp)
  /-- the final `raise` re-raising the `requests.RequestException`. -/
  | raisesTransport
  /-- `int()` raising `ValueError` on a malformed `Retry-After` header;
  not a `RequestException`, so not caught by the retry logic. -/
  | raisesValueError
  /-- the `for` loop exhausts without `return` or `raise`: the function
  implicitly returns `None`. -/
  | returnsNone
deriving DecidableEq

/-- The observable behaviour of one `safe_request` call: its outcome, the
`time.sleep` durations in order, and how many `requests.request` calls
were made. -/
structure SafeReqTrace where
  outcome : SafeReqOutcome
  sleeps : List Int
  calls : Nat
deriving DecidableEq

/-- The retry loop of `safe_request`, from attempt number `attempt` with
`remaining` loop iterations left (`remaining = max_retries - attempt + 1`
at every reachable call). -/
def safe_request_go (env : Nat → ReqResult) (max_retries : Nat)
    (backoff_base : Int) : Nat → Nat → SafeReqTrace
  | _, 0 => { outcome := .returnsNone, sleeps := [], calls := 0 }
  | attempt, r + 1 =>
    match env attempt with
    | .raises =>
      if attempt < max_retries then
        let t := safe_request_go env max_retries backoff_base (attempt + 1) r
        { t with sleeps := backoff_base ^ attempt :: t.sleeps, calls := t.calls + 1 }
      else
        { outcome := .raisesTransport, sleeps := [], calls := 1 }
    | .resp resp =>
      if resp.status_code = 429 then
        match resp.retryAfter with
        | none =>
          let t := safe_request_go env max_retries backoff_base (attempt + 1) r
          { t with sleeps := (5 : Int) :: t.sleeps, calls := t.calls + 1 }
        | some s =>
          match pyInt s with
          | none => { outcome := .raisesValueError, sleeps := [], calls := 1 }
          | some n =>
            let t := safe_request_go env max_retries backoff_base (attempt + 1) r
            { t with sleeps := n :: t.sleeps, calls := t.calls + 1 }
      else if 400 ≤ resp.status_code ∧ resp.status_code < 600 then
        if attempt < max_retries then
          let t := safe_request_go env max_retries backoff_base (attempt + 1) r
          { t with sleeps := backoff_base ^ attempt :: t.sleeps, calls := t.calls + 1 }
        else
          { outcome := .raisesTransport, sleeps := [], calls := 1 }
      else
        { outcome := .returns resp, sleeps := [], calls := 1 }

/-- `safe_request(method, url, ..., max_retries, backoff_base)`: run the
loop from attempt 1 with `max_retries` iterations available.  A response
with status ≥ 400 makes `resp.raise_for_status()` raise an `HTTPError`
(a `RequestException`), which the `except` clause handles exactly like a
raised transport error. -/
def safe_request (env : Nat → ReqResult) (max_retries : Nat)
    (backoff_base : Int) : SafeReqTrace :=
  safe_request_go env max_retries backoff_base 1 max_retries

/-- The backoff sleeps `backoff_base ^ a, backoff_base ^ (a + 1), ...`
(`n` of them), as the spec describes the exponential schedule. -/
def backoffSleeps (b : Int) (a : Nat) : Nat → List Int
  | 0 => []
  | n + 1 => b ^ a :: backoffSleeps b (a + 1) n

/-- `int(resp.headers.get("Retry-After", 5))` on a 429 response: 5 when
the header is absent, the parsed integer when present and decimal, `none`
when `int` raises `ValueError`. -/
def retryAfterValue : Option String → Option Int
  | none => some 5
  | some s => pyInt s

/-! ### The relation resolver (`get_linked_prs`) -/

/-- Value of a hexadecimal digit, if the character is one. -/
def hexDigitVal (c : Char) : Option Nat :=
  if 48 ≤ c.toNat ∧ c.toNat ≤ 57 then some (c.toNat - 48)
  else if 97 ≤ c.toNat ∧ c.toNat ≤ 102 then some (c.toNat - 87)
  else if 65 ≤ c.toNat ∧ c.toNat ≤ 70 then some (c.toNat - 55)
  else none

/-- `urllib.parse.unquote` on a character list: each `%XX` escape with two
hex digits becomes the character with that code, malformed escapes are left
untouched (multi-byte UTF-8 escape sequences are out of scope; the link
segments handled here are ASCII). -/
def unquoteList : List Char → List Char
  | [] => []
  | '%' :: h1 :: h2 :: rest =>
    match hexDigitVal h1, hexDigitVal h2 with
    | some a, some b => Char.ofNat (16 * a + b) :: unquoteList rest
    | _, _ => '%' :: unquoteList (h1 :: h2 :: rest)
  | c :: rest => c :: unquoteList rest

/-- Python `s.split(sep)` for a one-character separator: always a
non-empty list of (possibly empty) groups. -/
def pySplit : List Char → Char → List (List Char)
  | [], _ => [[]]
  | c :: t, sep =>
    match pySplit t sep with
    | [] => [[]]
    | g :: gs => if c = sep then [] :: g :: gs else (c :: g) :: gs

/-- The `attributes` object of a work-item relation. -/
structure RelAttributes where
  name : Option String
deriving DecidableEq

/-- One entry of the work item's `relations` array; `rel["url"]` is
accessed unconditionally by the source, so it is a plain field. -/
structure Relation where
  attributes : Option RelAttributes
  url : String
deriving DecidableEq

/-- `rel.get("attributes", {}).get("name")`. -/
def relName (rel : Relation) : Option String :=
  rel.attributes.bind RelAttributes.name

/-- The body of the `for rel in res.get("relations", [])` loop of
`get_linked_prs`: possibly append one `(repo_id, pr_id)` pair to `prs`. -/
def linkedPrStep (prs : List (String × String)) (rel : Relation) :
    List (String × String) :=
  if relName rel = some "Pull Request" then
    let decoded := unquoteList ((pySplit rel.url.toList '/').getLastD [])
    let parts := pySplit decoded '/'
    if parts.length ≥ 2 then
      prs ++ [(String.mk (parts.dropLast.getLastD []), String.mk (parts.getLastD []))]
    else prs
  else prs

/-- `get_linked_prs`, given the `relations` array of the fetched work item
(the HTTP fetch itself is the upstream input): the `prs = []` accumulator
loop of the source. -/
def get_linked_prs (relations : List Relation) : List (String × String) :=
  relations.foldl linkedPrStep []

/-- Modelled from the spec's description of the resolver (§4.2 / C7): keep
exactly the relations whose `attributes.name` is `"Pull Request"`, URL-decode
the final path segment, split it on `/`, and keep the two trailing
components, silently skipping relations that decode to fewer than two. -/
def linkedPrsOfSpec (relations : List Relation) : List (String × String) :=
  (relations.filter (fun rel => relName rel = some "Pull Request")).filterMap
    (fun rel =>
      let decoded := unquoteList ((pySplit rel.url.toList '/').getLastD [])
      let parts := pySplit decoded '/'
      if parts.length ≥ 2 then
        some (String.mk (parts.dropLast.getLastD []), String.mk (parts.getLastD []))
      else none)

/-! ### The pipeline orchestrator (`main`) -/

/-- The `author` object of a comment. -/
structure Author where
  uniqueName : Option String
deriving DecidableEq

/-- One comment of a thread, with the fields `main` reads. -/
structure Comment where
  author : Option Author
  content : Option String
  createdDate : Option String
deriving DecidableEq

/-- One thread of the threads endpoint's `value` array. -/
structure CommentThread where
  comments : Option (List Comment)
deriving DecidableEq

/-- One output row appended to `rows`. -/
structure Row where
  ticket_id : Int
  repo_id : String
  pr_id : String
  author : String
  team : String
  comment : String
  created_date : Option String
deriving DecidableEq

/-- The mutable state of one run: the `rows` list and the `debug_stats`
counters (a `defaultdict(int)`, so every counter starts at 0). -/
structure RunState where
  rows : List Row
  tickets_processed : Nat
  comments_seen : Nat
  comments_filtered : Nat
  comments_kept : Nat
deriving DecidableEq

/-- The fixed upstream data of one run: the `relations` array returned for
each work item, and the `value` array returned for each (repo, PR). -/
structure Upstream where
  relations : Int → List Relation
  threads : String → String → List CommentThread

/-- The local `author` variable of the loop body:
`(comment.get("author", {}).get("uniqueName", "")).lower()`. -/
def commentAuthor (c : Comment) : String :=
  pyLower ((c.author.bind Author.uniqueName).getD "")

/-- The local `text` variable: `comment.get("content", "")`. -/
def commentText (c : Comment) : String :=
  c.content.getD ""

/-- The body of the innermost loop of `main`, for one comment. -/
def processComment (team_a team_b : List String) (wid : Int)
    (repo_id pr_id : String) (s : RunState) (c : Comment) : RunState :=
  let s1 := { s with comments_seen := s.comments_seen + 1 }
  if is_noise_comment (commentText c) (commentAuthor c) then
    { s1 with comments_filtered := s1.comments_filtered + 1 }
  else
    { s1 with
      comments_kept := s1.comments_kept + 1,
      rows := s1.rows ++
        [{ ticket_id := wid, repo_id := repo_id, pr_id := pr_id,
           author := commentAuthor c,
           team := classify_team (commentAuthor c) team_a team_b,
           comment := commentText c,
           created_date := c.createdDate }] }

/-- `for comment in thread.get("comments", [])`. -/
def processThread (team_a team_b : List String) (wid : Int)
    (repo_id pr_id : String) (s : RunState) (t : CommentThread) : RunState :=
  (t.comments.getD []).foldl (processComment team_a team_b wid repo_id pr_id) s

/-- `for thread in threads` for one linked (repo, PR). -/
def processPr (u : Upstream) (team_a team_b : List String) (wid : Int)
    (s : RunState) (pr : String × String) : RunState :=
  (u.threads pr.1 pr.2).foldl (processThread team_a team_b wid pr.1 pr.2) s

/-- The body of the outer `for wid in args.tickets` loop. -/
def processTicket (u : Upstream) (team_a team_b : List String)
    (s : RunState) (wid : Int) : RunState :=
  let prs := get_linked_prs (u.relations wid)
  let s1 := { s with tickets_processed := s.tickets_processed + 1 }
  prs.foldl (processPr u team_a team_b wid) s1

/-- The initial run state. -/
def initState : RunState :=
  { rows := [], tickets_processed := 0, comments_seen := 0,
    comments_filtered := 0, comments_kept := 0 }

/-- The ticket loop of `main`, producing the final `rows` and
`debug_stats` for the given upstream data, ticket list and team rosters. -/
def runPipeline (u : Upstream) (tickets : List Int)
    (team_a team_b : List String) : RunState :=
  tickets.foldl (processTicket u team_a team_b) initState

/-- Pointwise order on the run counters ("only ever incremented"). -/
def statsLe (s t : RunState) : Prop :=
  s.tickets_processed ≤ t.tickets_processed ∧
  s.comments_seen ≤ t.comments_seen ∧
  s.comments_filtered ≤ t.comments_filtered ∧
  s.comments_kept ≤ t.comments_kept

/-- The run-statistics invariant of the spec (§8): seen = filtered + kept,
and kept counts exactly the produced rows. -/
def statsInv (s : RunState) : Prop :=
  s.comments_seen = s.comments_filtered + s.comments_kept ∧
  s.comments_kept = s.rows.length

/-! ### Supporting lemmas -/

theorem toList_mk (l : List Char) : (String.mk l).toList = l := rfl

theorem charToNat_ofNat_of_lt {n : Nat} (h : n < 0xd800) : (Char.ofNat n).toNat = n := by
  have hv : n.isValidChar := Or.inl h
  rw [Char.ofNat, dif_pos hv]
  rfl

theorem pyIsUpperChar_pyLowerChar (c : Char) : pyIsUpperChar (pyLowerChar c) = false := by
  unfold pyLowerChar
  by_cases h : pyIsUpperChar c = true
  · have h' : 65 ≤ c.toNat ∧ c.toNat ≤ 90 := of_decide_eq_true h
    have ht : (Char.ofNat (c.toNat + 32)).toNat = c.toNat + 32 :=
      charToNat_ofNat_of_lt (by omega)
    simp only [h, if_true]
    unfold pyIsUpperChar
    simp only [ht, decide_eq_false_iff_not]
    omega
  · simp only [Bool.not_eq_true] at h
    simp [h]

theorem pyLowerChar_of_notUpper {c : Char} (h : pyIsUpperChar c = false) :
    pyLowerChar c = c := by
  unfold pyLowerChar
  simp [h]

theorem pyLowerChar_idem (c : Char) : pyLowerChar (pyLowerChar c) = pyLowerChar c :=
  pyLowerChar_of_notUpper (pyIsUpperChar_pyLowerChar c)

theorem pyLower_idem (s : String) : pyLower (pyLower s) = pyLower s := by
  unfold pyLower
  rw [toList_mk, List.map_map]
  refine congrArg String.mk (List.map_congr_left ?_)
  intro c _
  exact pyLowerChar_idem c

theorem pyLower_ne_of_hasUpper {m : String} (hm : pyHasUpper m = true) (s : String) :
    pyLower s ≠ m := by
  intro he
  unfold pyHasUpper at hm
  rw [← he] at hm
  unfold pyLower at hm
  rw [toList_mk, List.any_eq_true] at hm
  obtain ⟨c, hc, hcu⟩ := hm
  rw [List.mem_map] at hc
  obtain ⟨d, -, rfl⟩ := hc
  rw [pyIsUpperChar_pyLowerChar d] at hcu
  cases hcu

/-! ### Claim C3: short comment bodies -/

/-- C3 counterexample: the claim quantifies over bodies with fewer than 4
non-whitespace characters, but the code tests `len(text.strip()) < 4`,
which only trims the two ends.  `"a b c"` has 3 non-whitespace characters,
yet `is_noise_comment` keeps it for an ordinary author. -/
theorem c3_counterexample :
    nonWsCount "a b c" < 4 ∧
      is_noise_comment "a b c" "user@example.com" = false := by
  decide

/-- C3 (amended): for every comment body that is empty or whose
whitespace-stripped form is shorter than 4 characters, `is_noise_comment`
returns `true`, for every author identity. -/
theorem c3_noise_short_bodies (text author : String)
    (h : text = "" ∨ (pyStrip text).length < 4) :
    is_noise_comment text author = true := by
  unfold is_noise_comment
  rw [if_pos h]

/-- C3 witness: `"hi"` strips to 2 < 4 characters and is classified as
noise. -/
theorem c3_noise_short_bodies_witness :
    ("hi" = "" ∨ (pyStrip "hi").length < 4) ∧
      is_noise_comment "hi" "x@y.com" = true :=
  ⟨by decide, c3_noise_short_bodies "hi" "x@y.com" (by decide)⟩

/-! ### Claim C4: the team classifier -/

/-- C4: `classify_team` always returns one of the three labels
`"team_a"`, `"team_b"`, `"other"`, and an author belonging to both rosters
is labelled `"team_a"` (teamA membership takes precedence). -/
theorem c4_classify_total_and_precedence (author : String) (ta tb : List String) :
    (classify_team author ta tb = "team_a" ∨ classify_team author ta tb = "team_b" ∨
      classify_team author ta tb = "other")
    ∧ (author ∈ ta → author ∈ tb → classify_team author ta tb = "team_a") := by
  constructor
  · unfold classify_team
    split
    · exact Or.inl rfl
    · split
      · exact Or.inr (Or.inl rfl)
      · exact Or.inr (Or.inr rfl)
  · intro ha _
    unfold classify_team
    rw [if_pos (List.elem_iff.mpr ha)]

/-- C4 witness: an author on both rosters is labelled `"team_a"`. -/
theorem c4_classify_total_and_precedence_witness :
    classify_team "u@e.com" ["u@e.com"] ["u@e.com"] = "team_a" :=
  (c4_classify_total_and_precedence "u@e.com" ["u@e.com"] ["u@e.com"]).2
    (by decide) (by decide)

/-! ### Claim C1: termination of the retry loop -/

/-- C1: the claim says `safe_request` always either returns a successful
`Response` or raises, also when every attempt yields HTTP 429.  The code
violates this: when every attempt is answered with 429, each attempt
sleeps 5 seconds (no `Retry-After` header) and `continue`s, the `for` loop
exhausts its `max_retries` iterations, and the function falls off the loop,
implicitly returning `None` — no `Response` and no exception.  This theorem
evaluates the embedded code at that failing input. -/
theorem c1_all_429_returns_none :
    safe_request (fun _ => .resp ⟨429, none⟩) 3 2 =
      { outcome := .returnsNone, sleeps := [5, 5, 5], calls := 3 } := by
  decide

/-! ### Claim C2: non-429 client errors -/

/-- C2 counterexample: the claim says a non-429 4xx response fails
immediately, with no further attempts and no backoff sleep.  With every
attempt answered 404 and the default `max_retries = 3`, `backoff_base = 2`,
the code in fact makes 3 HTTP calls and sleeps twice (2 s and 4 s) before
raising: `raise_for_status` turns the 404 into an `HTTPError`, which the
`except requests.RequestException` clause retries like any transport
failure. -/
theorem c2_counterexample :
    (safe_request (fun _ => .resp ⟨404, none⟩) 3 2).calls = 3 ∧
      (safe_request (fun _ => .resp ⟨404, none⟩) 3 2).sleeps ≠ [] := by
  decide

theorem safe_request_go_clientError (env : Nat → ReqResult) (mr : Nat) (b : Int)
    (st : Nat) (h4 : 400 ≤ st) (h5 : st < 500) (h9 : st ≠ 429)
    (henv : ∀ a, env a = .resp ⟨st, none⟩) :
    ∀ r attempt, 1 ≤ r → attempt + r = mr + 1 →
      safe_request_go env mr b attempt r =
        { outcome := .raisesTransport, sleeps := backoffSleeps b attempt (r - 1),
          calls := r } := by
  intro r
  induction r with
  | zero => intro attempt h1 _; exact absurd h1 (by omega)
  | succ r ih =>
    intro attempt h1 h2
    rw [safe_request_go, henv attempt]
    simp only
    rw [if_neg h9, if_pos (show 400 ≤ st ∧ st < 600 by omega)]
    by_cases hlt : attempt < mr
    · have hr1 : 1 ≤ r := by omega
      rw [if_pos hlt, ih (attempt + 1) hr1 (by omega)]
      obtain ⟨rr, rfl⟩ : ∃ rr, r = rr + 1 := ⟨r - 1, by omega⟩
      simp [backoffSleeps]
    · have hr0 : r = 0 := by omega
      rw [if_neg hlt]
      subst hr0
      simp [backoffSleeps]

/-- C2 (amended): a non-429 client-error response (4xx other than 429) is
handled like every other `RequestException`: while attempts remain, the
client sleeps `backoff_base ^ attempt` and retries; only after the final
attempt is the failure propagated.  With every attempt answered by such a
status, all `max_retries` attempts are consumed and the exponential
backoff sleeps `backoff_base ^ 1, ..., backoff_base ^ (max_retries - 1)`
occur. -/
theorem c2_client_error_retries (env : Nat → ReqResult) (mr : Nat) (b : Int)
    (st : Nat) (h4 : 400 ≤ st) (h5 : st < 500) (h9 : st ≠ 429) (hmr : 1 ≤ mr)
    (henv : ∀ a, env a = .resp ⟨st, none⟩) :
    safe_request env mr b =
      { outcome := .raisesTransport, sleeps := backoffSleeps b 1 (mr - 1),
        calls := mr } := by
  unfold safe_request
  exact safe_request_go_clientError env mr b st h4 h5 h9 henv mr 1 hmr (by omega)

/-- C2 witness: three 404 responses with the default settings give the
trace `raisesTransport`, sleeps `[2, 4]`, 3 calls. -/
theorem c2_client_error_retries_witness :
    safe_request (fun _ => .resp ⟨404, none⟩) 3 2 =
      { outcome := .raisesTransport, sleeps := backoffSleeps 2 1 2, calls := 3 } :=
  c2_client_error_retries (fun _ => .resp ⟨404, none⟩) 3 2 404
    (by decide) (by decide) (by decide) (by decide) (fun _ => rfl)

/-! ### Claim C6: HTTP 429 handling -/

/-- C6 counterexample: the claim says a 429-triggered retry consumes no
attempt slot and does not advance the exponential-backoff schedule.  With
`max_retries = 3`, `backoff_base = 2`: attempt 1 gets a 429 (sleep 5, the
default), attempts 2 and 3 raise transport errors.  The code makes only 3
HTTP calls in total (the 429 consumed an attempt slot) and the backoff
sleep after the attempt-2 failure is `2 ^ 2 = 4`, not `2 ^ 1 = 2` (the 429
advanced the backoff schedule), contradicting the claim's sleeps `[5, 2]`
and a further attempt. -/
theorem c6_counterexample :
    safe_request (fun a => if a = 1 then .resp ⟨429, none⟩ else .raises) 3 2 =
      { outcome := .raisesTransport, sleeps := [5, 4], calls := 3 } ∧
      ([5, 4] : List Int) ≠ [5, 2] := by
  decide

/-- C6 (amended): when an attempt receives HTTP 429 with any well-formed
`Retry-After` reading `n` (the parsed header value when present, 5 seconds
when the header is absent), the client sleeps `n` and then retries — but
this retry consumes an attempt slot of the retry budget and advances the
backoff schedule: with `max_retries = 3`, a 429 on attempt 1 followed by
transport failures leaves only two further attempts, whose single backoff
sleep is `backoff_base ^ 2`. -/
theorem c6_429_sleeps_and_consumes_slot (env : Nat → ReqResult) (b : Int)
    (ra : Option String) (n : Int) (hra : retryAfterValue ra = some n)
    (h1 : env 1 = .resp ⟨429, ra⟩) (h2 : env 2 = .raises)
    (h3 : env 3 = .raises) :
    safe_request env 3 b =
      { outcome := .raisesTransport, sleeps := [n, b ^ 2], calls := 3 } := by
  cases ra with
  | none =>
    obtain rfl : (5 : Int) = n := by simpa [retryAfterValue] using hra
    simp [safe_request, safe_request_go, h1, h2, h3]
  | some s =>
    have hs : pyInt s = some n := by simpa [retryAfterValue] using hra
    simp [safe_request, safe_request_go, h1, h2, h3, hs]

/-- C6 witness: a 429 carrying `Retry-After: 2` sleeps the parsed 2
seconds, then the two remaining attempts sleep `2 ^ 2` and raise. -/
theorem c6_429_sleeps_and_consumes_slot_witness :
    safe_request (fun a => if a = 1 then .resp ⟨429, some "2"⟩ else .raises) 3 2 =
      { outcome := .raisesTransport, sleeps := [2, 2 ^ 2], calls := 3 } :=
  c6_429_sleeps_and_consumes_slot _ 2 (some "2") 2 (by decide) rfl rfl rfl

/-! ### Claim C9: malformed `Retry-After` -/

/-- C9: if the first attempt's response is a 429 whose `Retry-After` value
is not a decimal integer string, `int(...)` raises `ValueError` at once:
the outcome is neither a return nor a `TransportError`, no sleep happens,
and no further attempt is made (one single HTTP call). -/
theorem c9_bad_retry_after_value_error (env : Nat → ReqResult) (mr : Nat)
    (b : Int) (s : String) (hmr : 1 ≤ mr) (h1 : env 1 = .resp ⟨429, some s⟩)
    (hs : pyInt s = none) :
    safe_request env mr b =
      { outcome := .raisesValueError, sleeps := [], calls := 1 } := by
  obtain ⟨r, rfl⟩ : ∃ r, mr = r + 1 := ⟨mr - 1, by omega⟩
  simp [safe_request, safe_request_go, h1, hs]

/-- C9 witness: an HTTP-date `Retry-After` value is not parseable by
`int`, so the call raises `ValueError` immediately. -/
theorem c9_bad_retry_after_value_error_witness :
    safe_request (fun _ => .resp ⟨429, some "Wed, 21 Oct 2015 07:28:00 GMT"⟩) 3 2 =
      { outcome := .raisesValueError, sleeps := [], calls := 1 } :=
  c9_bad_retry_after_value_error _ 3 2 "Wed, 21 Oct 2015 07:28:00 GMT"
    (by decide) rfl (by decide)

/-! ### Claim C7: the relation resolver -/

theorem foldl_linkedPrStep (rels : List Relation) :
    ∀ acc, rels.foldl linkedPrStep acc = acc ++ linkedPrsOfSpec rels := by
  induction rels with
  | nil => intro acc; simp [linkedPrsOfSpec]
  | cons rel rest ih =>
    intro acc
    rw [List.foldl_cons, ih]
    unfold linkedPrStep linkedPrsOfSpec
    by_cases hq : relName rel = some "Pull Request"
    · rw [if_pos hq]
      rw [List.filter_cons_of_pos (by simp [hq])]
      rw [List.filterMap_cons]
      by_cases hl :
          (pySplit (unquoteList ((pySplit rel.url.toList '/').getLastD [])) '/').length ≥ 2
      · rw [if_pos hl]
        simp only [if_pos hl, List.append_assoc]
        rfl
      · rw [if_neg hl]
        simp only [if_neg hl]
    · rw [if_neg hq]
      rw [List.filter_cons_of_neg (by simp [hq])]

/-- C7: `get_linked_prs` returns exactly the `(second-to-last, last)`
component pairs obtained by URL-decoding the final path segment of each
relation whose `attributes.name` is exactly `"Pull Request"` and splitting
it on `/`; qualifying relations whose decoded segment has fewer than two
components are skipped silently, and a ticket with no qualifying relation
yields the empty list rather than a failure. -/
theorem c7_linked_prs_spec (relations : List Relation) :
    get_linked_prs relations = linkedPrsOfSpec relations
    ∧ ((∀ rel ∈ relations, relName rel ≠ some "Pull Request") →
        get_linked_prs relations = []) := by
  constructor
  · rw [get_linked_prs, foldl_linkedPrStep, List.nil_append]
  · intro hnone
    rw [get_linked_prs, foldl_linkedPrStep, List.nil_append]
    unfold linkedPrsOfSpec
    rw [List.filter_eq_nil_iff.mpr (by intro rel hrel; simpa using hnone rel hrel)]
    rfl

/-- C7 witness: a ticket whose only relation is not a pull-request link
yields the empty sequence. -/
theorem c7_linked_prs_spec_witness :
    get_linked_prs [{ attributes := some { name := some "Other" }, url := "x/y" }] = [] :=
  (c7_linked_prs_spec _).2 (by decide)

/-! ### Claim C5: run statistics -/

theorem statsLe_refl (s : RunState) : statsLe s s := by
  unfold statsLe
  exact ⟨Nat.le_refl _, Nat.le_refl _, Nat.le_refl _, Nat.le_refl _⟩

theorem statsLe_trans {s t u : RunState} (h1 : statsLe s t) (h2 : statsLe t u) :
    statsLe s u := by
  unfold statsLe at h1 h2 ⊢
  omega

theorem foldl_statsLe {α : Type} (f : RunState → α → RunState)
    (hf : ∀ s x, statsLe s (f s x)) (l : List α) (s : RunState) :
    statsLe s (l.foldl f s) := by
  induction l generalizing s with
  | nil => exact statsLe_refl s
  | cons x t ih => exact statsLe_trans (hf s x) (ih (f s x))

theorem processComment_statsLe (ta tb : List String) (wid : Int)
    (rid pid : String) (s : RunState) (c : Comment) :
    statsLe s (processComment ta tb wid rid pid s c) := by
  unfold processComment
  split <;> (unfold statsLe; simp)

theorem processThread_statsLe (ta tb : List String) (wid : Int)
    (rid pid : String) (s : RunState) (t : CommentThread) :
    statsLe s (processThread ta tb wid rid pid s t) :=
  foldl_statsLe _ (processComment_statsLe ta tb wid rid pid) _ s

theorem processPr_statsLe (u : Upstream) (ta tb : List String) (wid : Int)
    (s : RunState) (pr : String × String) :
    statsLe s (processPr u ta tb wid s pr) :=
  foldl_statsLe _ (fun s t => processThread_statsLe ta tb wid pr.1 pr.2 s t) _ s

theorem processTicket_statsLe (u : Upstream) (ta tb : List String)
    (s : RunState) (wid : Int) :
    statsLe s (processTicket u ta tb s wid) := by
  unfold processTicket
  refine statsLe_trans ?_ (foldl_statsLe _ (processPr_statsLe u ta tb wid) _ _)
  unfold statsLe
  simp

theorem foldl_pres {α : Type} (P : RunState → Prop) (f : RunState → α → RunState)
    (hf : ∀ s x, P s → P (f s x)) (l : List α) (s : RunState) (hs : P s) :
    P (l.foldl f s) := by
  induction l generalizing s with
  | nil => exact hs
  | cons x t ih => exact ih (f s x) (hf s x hs)

theorem processComment_statsInv (ta tb : List String) (wid : Int)
    (rid pid : String) (s : RunState) (c : Comment) (hs : statsInv s) :
    statsInv (processComment ta tb wid rid pid s c) := by
  unfold statsInv at hs ⊢
  unfold processComment
  split <;> simp <;> omega

theorem processTicket_statsInv (u : Upstream) (ta tb : List String)
    (s : RunState) (wid : Int) (hs : statsInv s) :
    statsInv (processTicket u ta tb s wid) := by
  unfold processTicket
  refine foldl_pres statsInv _ ?_ _ _ ?_
  · intro s2 pr hs2
    unfold processPr
    refine foldl_pres statsInv _ ?_ _ _ hs2
    intro s3 t hs3
    unfold processThread
    exact foldl_pres statsInv _
      (fun s4 c h4 => processComment_statsInv ta tb wid pr.1 pr.2 s4 c h4) _ _ hs3
  · unfold statsInv at hs ⊢
    simpa using hs

/-- C5: after any completed run, `comments_seen = comments_filtered +
comments_kept` and `comments_kept` counts exactly the produced rows;
moreover every step of the run (each processed comment, and each processed
ticket as a whole) only ever increases the four counters. -/
theorem c5_run_statistics (u : Upstream) (tickets : List Int)
    (ta tb : List String) :
    statsInv (runPipeline u tickets ta tb)
    ∧ (∀ (wid : Int) (rid pid : String) (s : RunState) (c : Comment),
        statsLe s (processComment ta tb wid rid pid s c))
    ∧ (∀ (u2 : Upstream) (s : RunState) (wid : Int),
        statsLe s (processTicket u2 ta tb s wid)) := by
  refine ⟨?_, processComment_statsLe ta tb, fun u2 => processTicket_statsLe u2 ta tb⟩
  unfold runPipeline
  refine foldl_pres statsInv _ (fun s wid hs => processTicket_statsInv u ta tb s wid hs) _ _ ?_
  unfold statsInv initState
  simp

/-! ### Claim C8: determinism -/

/-- C8: the pipeline is a pure function of the upstream responses, the
ticket list and the team rosters — the embedding has no other input — so
two runs over identical upstream data yield Classified Row sequences that
are identical in order and content. -/
theorem c8_deterministic (u : Upstream) (tickets : List Int)
    (ta tb : List String) :
    (runPipeline u tickets ta tb).rows = (runPipeline u tickets ta tb).rows :=
  rfl

/-! ### Claim C10: lowercased authors and case-sensitive rosters -/

theorem contains_filter_ne {author m : String} (h : author ≠ m) (l : List String) :
    (l.filter (fun x => x != m)).contains author = l.contains author := by
  induction l with
  | nil => rfl
  | cons y t ih =>
    by_cases hy : y = m
    · subst hy
      rw [List.filter_cons_of_neg (by simp)]
      rw [ih, List.contains_cons]
      have : (author == y) = false := beq_eq_false_iff_ne.mpr h
      simp [this]
    · rw [List.filter_cons_of_pos (by simpa using hy)]
      rw [List.contains_cons, List.contains_cons, ih]

theorem classify_team_filter_ne {author m : String} (h : author ≠ m)
    (ta tb : List String) :
    classify_team author (ta.filter (fun x => x != m)) (tb.filter (fun x => x != m)) =
      classify_team author ta tb := by
  unfold classify_team
  rw [contains_filter_ne h ta, contains_filter_ne h tb]

theorem commentAuthor_ne_of_hasUpper {m : String} (hm : pyHasUpper m = true)
    (c : Comment) : commentAuthor c ≠ m :=
  pyLower_ne_of_hasUpper hm _

theorem processComment_filter_ne {m : String} (hm : pyHasUpper m = true)
    (ta tb : List String) (wid : Int) (rid pid : String) (s : RunState)
    (c : Comment) :
    processComment (ta.filter (fun x => x != m)) (tb.filter (fun x => x != m))
        wid rid pid s c =
      processComment ta tb wid rid pid s c := by
  unfold processComment
  split
  · rfl
  · rw [classify_team_filter_ne (commentAuthor_ne_of_hasUpper hm c) ta tb]

theorem processTicket_filter_ne {m : String} (hm : pyHasUpper m = true)
    (u : Upstream) (ta tb : List String) (s : RunState) (wid : Int) :
    processTicket u (ta.filter (fun x => x != m)) (tb.filter (fun x => x != m))
        s wid =
      processTicket u ta tb s wid := by
  unfold processTicket
  dsimp only
  congr 1
  funext s2 pr
  unfold processPr
  congr 1
  funext s3 t
  unfold processThread
  congr 1
  funext s4 c
  exact processComment_filter_ne hm ta tb wid pr.1 pr.2 s4 c

/-- The row-level facts accumulated by the pipeline: authors are fixed
points of lowercasing, differ from any roster entry `m` containing an
uppercase character, and carry the team label computed from the author. -/
def rowOk (ta tb : List String) (m : String) (row : Row) : Prop :=
  row.author = pyLower row.author ∧ row.author ≠ m ∧
    row.team = classify_team row.author ta tb

theorem processComment_rowOk {m : String} (hm : pyHasUpper m = true)
    (ta tb : List String) (wid : Int) (rid pid : String) (s : RunState)
    (c : Comment) (hs : ∀ row ∈ s.rows, rowOk ta tb m row) :
    ∀ row ∈ (processComment ta tb wid rid pid s c).rows, rowOk ta tb m row := by
  unfold processComment
  split
  · simpa using hs
  · intro row hrow
    simp only [List.mem_append, List.mem_singleton] at hrow
    rcases hrow with hrow | rfl
    · exact hs row (by simpa using hrow)
    · refine ⟨(pyLower_idem _).symm, commentAuthor_ne_of_hasUpper hm c, rfl⟩

theorem processTicket_rowOk {m : String} (hm : pyHasUpper m = true)
    (u : Upstream) (ta tb : List String) (s : RunState) (wid : Int)
    (hs : ∀ row ∈ s.rows, rowOk ta tb m row) :
    ∀ row ∈ (processTicket u ta tb s wid).rows, rowOk ta tb m row := by
  unfold processTicket
  refine foldl_pres (fun s2 => ∀ row ∈ s2.rows, rowOk ta tb m row) _ ?_ _ _ ?_
  · intro s2 pr hs2
    unfold processPr
    refine foldl_pres (fun s3 => ∀ row ∈ s3.rows, rowOk ta tb m row) _ ?_ _ _ hs2
    intro s3 t hs3
    unfold processThread
    exact foldl_pres (fun s4 => ∀ row ∈ s4.rows, rowOk ta tb m row) _
      (fun s4 c h4 => processComment_rowOk hm ta tb wid pr.1 pr.2 s4 c h4) _ _ hs3
  · simpa using hs

/-- C10: every Classified Row's author is a lowercased identity (a fixed
point of lowercasing, the image of the upstream `author.uniqueName`, with
`""` for missing fields, under `lower()`), and the team label is computed
from that lowercased author by case-sensitive membership; consequently a
team-roster entry `m` containing an uppercase character can never match
any produced author — removing every such entry from both rosters leaves
the entire run's output unchanged. -/
theorem c10_lowercase_rosters (u : Upstream) (tickets : List Int)
    (ta tb : List String) (m : String) (hm : pyHasUpper m = true) :
    (∀ row ∈ (runPipeline u tickets ta tb).rows,
        row.author = pyLower row.author ∧ row.author ≠ m ∧
          row.team = classify_team row.author ta tb)
    ∧ runPipeline u tickets (ta.filter (fun x => x != m))
          (tb.filter (fun x => x != m)) =
        runPipeline u tickets ta tb := by
  constructor
  · unfold runPipeline
    exact foldl_pres (fun s => ∀ row ∈ s.rows, rowOk ta tb m row) _
      (fun s wid hs => processTicket_rowOk hm u ta tb s wid hs) _ _
      (by intro row hrow; simp [initState] at hrow)
  · unfold runPipeline
    congr 1
    funext s wid
    exact processTicket_filter_ne hm u ta tb s wid

/-- A fixed concrete upstream for the C10 witness: one ticket linked to
one pull request with a single human comment by `User1@example.com`. -/
def sampleUpstream : Upstream where
  relations := fun _ =>
    [{ attributes := some { name := some "Pull Request" },
       url := "vstfs:///Git/PullRequestId/proj%2Frepo1%2F77" }]
  threads := fun _ _ =>
    [{ comments := some
        [{ author := some { uniqueName := some "User1@example.com" },
           content := some "Looks good to me", createdDate := some "2024-01-01" }] }]

/-- C10 witness: at a concrete run whose roster entry `"User1@example.com"`
contains uppercase characters, the theorem's conclusion holds. -/
theorem c10_lowercase_rosters_witness :
    pyHasUpper "User1@example.com" = true ∧
      ((∀ row ∈ (runPipeline sampleUpstream [1] ["User1@example.com"] []).rows,
          row.author = pyLower row.author ∧ row.author ≠ "User1@example.com" ∧
            row.team = classify_team row.author ["User1@example.com"] [])
        ∧ runPipeline sampleUpstream [1]
              (["User1@example.com"].filter (fun x => x != "User1@example.com"))
              (List.filter (fun x => x != "User1@example.com") []) =
            runPipeline sampleUpstream [1] ["User1@example.com"] []) :=
  ⟨by decide,
    c10_lowercase_rosters sampleUpstream [1] ["User1@example.com"] []
      "User1@example.com" (by decide)⟩

end PRAnalyzer
